import Mathlib

/-!
# Verification of the PrototypeTester overlay controller

A shallow embedding of `prototype-tester.js`: the configuration surface, the
session state owned by the `PT` singleton, and the event-driven state machine
formed by its UI / DOM callbacks.  Every definition mirrors the source
function of the same name.  DOM availability of a control is modelled as a
guard on the corresponding action: a modal's buttons exist only while that
modal is open (a phase guard), while the bottom bar's controls are governed
by their visibility flags alone — the bar (`z-index 2147483646`) paints
*above* the modal backdrop (`#_pt-back`, `z-index 2147483645`), so visible
bar controls remain clickable even while a modal is open.
-/

namespace PrototypeTester

/-- A JavaScript boolean-valued config slot.  `jsundef` stands for any value
that is neither literally `true` nor literally `false` (e.g. `undefined`),
which the source distinguishes via `=== true` / `!== false`. -/
inductive JSBool where
  | jstrue
  | jsfalse
  | jsundef
deriving Repr, DecidableEq

/-- One entry of `_cfg.tasks` (author-supplied task definition). -/
structure TaskDef where
  id : Option String := none
  type : Option String := none
  title : String := ""
  description : String := ""
  hint : Option String := none
  goalEvent : Option String := none
  lookDuration : Option Nat := none
  question : Option String := none
  options : Option (List String) := none
  correctAnswer : Option String := none
deriving Repr, DecidableEq

/-- `PT._cfg` after `Object.assign` of the author's config over the defaults. -/
structure Config where
  projectName : String := "Prototype Test"
  tasks : List TaskDef := []
  webhookUrl : Option String := none
  supabaseUrl : Option String := none
  supabaseAnonKey : Option String := none
  collectTesterInfo : Bool := true
  allowSkip : Bool := true
  downloadResults : JSBool := .jstrue
deriving Repr, DecidableEq

/-- A recorded click, as pushed by the `_trackClicks` handler.  `t` is the
offset `Date.now() - taskStart` in milliseconds. -/
structure ClickEvent where
  t : Int
  x : Int
  y : Int
  tag : String
  idAttr : Option String
  txt : String
deriving Repr, DecidableEq

/-- An entry of `PT._s.taskResults`.  `_record` produces entries without the
recall-only fields (`taskType`/`recallAnswer`/`recallCorrect` are `none`);
`_finishRecall` produces entries with `easeRating` null (`none`). -/
structure TaskResult where
  taskId : String
  taskTitle : String
  taskType : Option String
  completed : Bool
  durationMs : Nat
  durationFmt : String
  easeRating : Option Nat
  comment : String
  recallAnswer : Option String
  recallCorrect : Option Bool
  clicks : List ClickEvent
deriving Repr, DecidableEq

/-- The nested `payload` object built in `_submit`.  `submittedAt` is the
submission timestamp (the source renders it as an ISO-8601 string). -/
structure Payload where
  sessionId : String
  projectName : String
  testerName : String
  testerEmail : String
  submittedAt : Nat
  sessionDurationMs : Nat
  sessionDurationFmt : String
  overallRating : Nat
  overallComment : String
  completedTasks : Nat
  totalTasks : Nat
  tasks : List TaskResult
deriving Repr, DecidableEq

/-- The flattened Supabase `row` built in `_submit`.  Fields of type
`Option _` are nullable columns (`none` = SQL null). -/
structure Row where
  session_id : String
  project_name : String
  tester_name : Option String
  tester_email : Option String
  submitted_at : Nat
  session_duration_fmt : String
  overall_rating : Option Nat
  overall_comment : Option String
  completed_tasks : Nat
  total_tasks : Nat
  tasks : List TaskResult
deriving Repr, DecidableEq

/-- Where the controller currently is: which modal is open / what the bar
shows.  `goalModal`, `skipModal` and `recallQuestion` carry the `elapsed`
value captured when they were opened (`_goalReached` / `_doSkip` /
`_showRecallQuestion` compute it once and close over it).  `submitted`
carries the payload built by `_submit`.  `stuck` models a thrown JS
`TypeError` (reading a property of `undefined` task). -/
inductive Phase where
  | welcome
  | intro
  | active
  | goalModal (elapsed : Nat)
  | skipModal (elapsed : Nat)
  | recallIntro
  | recallLook
  | recallQuestion (elapsed : Nat)
  | recallFeedback
  | final
  | submitted (p : Payload)
  | stuck
deriving Repr, DecidableEq

/-- `PT._s` together with the implicit UI mode (`phase`) and the visibility
state of the bottom bar's chrome: `doneVisible` is the done button's
`visible` CSS class, `barShown` tracks `#_pt-bar.style.display`,
`controlsShown` tracks `#_pt-controls.style.display` (the container of the
done and skip buttons), and `hintShown` tracks `#_pt-hint-btn.style.display`.
Because the bar stacks above the modal backdrop, these flags — not the open
modal — decide whether the bar's buttons can be clicked. -/
structure PTState where
  phase : Phase
  sessionId : String
  testerName : String
  testerEmail : String
  sessionStart : Nat
  currentTask : Nat
  taskStart : Option Nat
  clicks : List ClickEvent
  taskResults : List TaskResult
  goalListener : Option String
  goalFired : Bool
  doneVisible : Bool
  skipState : Bool
  hintOpen : Bool
  recallIv : Bool
  recallActive : Bool
  barShown : Bool
  controlsShown : Bool
  hintShown : Bool
deriving Repr, DecidableEq

/-- JS `s || d` for strings: the only falsy string is `""`. -/
def jsOrStr (s d : String) : String :=
  if s = "" then d else s

/-- JS `o || d` where `o` is an optional string property (e.g. `task.id`). -/
def jsOrIdStr : Option String → String → String
  | none, d => d
  | some s, d => if s = "" then d else s

/-- JS `s || null` for a string: `""` is coerced to null. -/
def jsOrNullStr (s : String) : Option String :=
  if s = "" then none else some s

/-- JS `n || null` for a number in 0..5: `0` is coerced to null. -/
def jsOrNullNat (n : Nat) : Option Nat :=
  if n = 0 then none else some n

/-- JS truthiness of an optional string property (`undefined`/`""` falsy). -/
def optTruthy : Option String → Bool
  | none => false
  | some s => s ≠ ""

/-- JS `String.prototype.trim()`: strip leading and trailing whitespace.
(Defined structurally over the character list so that it evaluates by
kernel reduction; extensionally it is ordinary trimming.) -/
def jsTrim (s : String) : String :=
  String.mk (((s.data.dropWhile Char.isWhitespace).reverse.dropWhile
    Char.isWhitespace).reverse)

/-- JS `String.prototype.slice(0, n)`: the first `n` characters. -/
def jsSlice (s : String) (n : Nat) : String :=
  String.mk (s.data.take n)

/-- JS `String.prototype.toLowerCase()`. -/
def jsToLower (s : String) : String :=
  String.mk (s.data.map Char.toLower)

/-- `PT._fmt`: `Math.floor(ms/1000)` seconds, rendered `"Ns"` below one
minute and `"Mm Ss"` from one minute on. -/
def _fmt (ms : Nat) : String :=
  let s := ms / 1000
  if s < 60 then toString s ++ "s"
  else toString (s / 60) ++ "m " ++ toString (s % 60) ++ "s"

/-- `Date.now() - (PT._s.taskStart || Date.now())` as computed in
`_goalReached` and `_doSkip` (elapsed 0 when the task clock never started). -/
def elapsedOf (σ : PTState) (now : Nat) : Nat :=
  match σ.taskStart with
  | some t0 => now - t0
  | none => 0

/-- `PT._record`: push one result entry built from the current state. -/
def _record (σ : PTState) (task : TaskDef) (completed : Bool) (elapsed : Nat)
    (rating : Nat) (comment : String) : PTState :=
  { σ with taskResults := σ.taskResults ++ [{
      taskId := jsOrIdStr task.id ("task_" ++ toString (σ.currentTask + 1))
      taskTitle := task.title
      taskType := none
      completed := completed
      durationMs := elapsed
      durationFmt := _fmt elapsed
      easeRating := some rating
      comment := comment
      recallAnswer := none
      recallCorrect := none
      clicks := σ.clicks }] }

/-- `PT._startTask`: reset the per-task state and restore the bar controls,
then either branch into the recall flow (`_startRecallTask`, which hides the
hint button and the controls again; early return: the previous goal listener
is left untouched) or set up the hint button, done button and goal listener
and open the intro modal. -/
def _startTask (cfg : Config) (σ : PTState) (i : Nat) : PTState :=
  match cfg.tasks[i]? with
  | none => { σ with phase := .stuck }
  | some task =>
    let σ' := { σ with
      currentTask := i
      clicks := []
      hintOpen := false
      skipState := false
      goalFired := false
      taskStart := none
      recallActive := false
      recallIv := false
      controlsShown := true }
    if task.type = some "recall" then
      { σ' with
        hintShown := false
        controlsShown := false
        phase := .recallIntro }
    else
      { σ' with
        hintShown := optTruthy task.hint
        doneVisible := !(optTruthy task.goalEvent)
        goalListener := if optTruthy task.goalEvent then task.goalEvent else none
        phase := .intro }

/-- `PT._goalReached`: set the double-fire guard, detach the listener, and
open the success modal over the elapsed time captured now. -/
def _goalReached (σ : PTState) (now : Nat) : PTState :=
  { σ with
    goalFired := true
    goalListener := none
    phase := .goalModal (elapsedOf σ now) }

/-- `PT._advance`: next task, or final feedback (`_showFinal` hides the
bottom bar). -/
def _advance (cfg : Config) (σ : PTState) : PTState :=
  let next := σ.currentTask + 1
  if next < cfg.tasks.length then _startTask cfg σ next
  else { σ with barShown := false, phase := .final }

/-- `PT._doSkip`: capture elapsed, detach the goal listener, open the skip
comment modal. -/
def _doSkip (σ : PTState) (now : Nat) : PTState :=
  { σ with goalListener := none, phase := .skipModal (elapsedOf σ now) }

/-- `PT._finishRecall`: grade the answer case-insensitively against
`correctAnswer` when one is configured, push an always-completed result,
restore the bar controls ("Restore bar for next task"), and either show the
feedback modal (`correctAnswer` present) or advance at once.  Restoring the
controls while the feedback modal is open matters: the bar stacks above the
modal backdrop, so the skip (and possibly done) buttons are clickable
there. -/
def _finishRecall (cfg : Config) (σ : PTState) (task : TaskDef) (elapsed : Nat)
    (answer : String) : PTState :=
  let correct : Option Bool :=
    match task.correctAnswer with
    | some key => some (jsToLower answer == jsToLower key)
    | none => none
  let σ' := { σ with
    controlsShown := true
    taskResults := σ.taskResults ++ [{
      taskId := jsOrIdStr task.id ("task_" ++ toString (σ.currentTask + 1))
      taskTitle := task.title
      taskType := some "recall"
      completed := true
      durationMs := elapsed
      durationFmt := _fmt elapsed
      easeRating := none
      comment := ""
      recallAnswer := some answer
      recallCorrect := correct
      clicks := σ.clicks }] }
  match task.correctAnswer with
  | some _ => { σ' with phase := .recallFeedback }
  | none => _advance cfg σ'

/-- The `payload` object of `PT._submit`. -/
def mkPayload (cfg : Config) (σ : PTState) (now : Nat) (overallRating : Nat)
    (overallComment : String) : Payload :=
  { sessionId := σ.sessionId
    projectName := cfg.projectName
    testerName := σ.testerName
    testerEmail := σ.testerEmail
    submittedAt := now
    sessionDurationMs := now - σ.sessionStart
    sessionDurationFmt := _fmt (now - σ.sessionStart)
    overallRating := overallRating
    overallComment := overallComment
    completedTasks := σ.taskResults.countP (·.completed)
    totalTasks := cfg.tasks.length
    tasks := σ.taskResults }

/-- The flattened Supabase `row` of `PT._submit` (the `|| null` coercions). -/
def mkRow (p : Payload) : Row :=
  { session_id := p.sessionId
    project_name := p.projectName
    tester_name := jsOrNullStr p.testerName
    tester_email := jsOrNullStr p.testerEmail
    submitted_at := p.submittedAt
    session_duration_fmt := p.sessionDurationFmt
    overall_rating := jsOrNullNat p.overallRating
    overall_comment := jsOrNullStr p.overallComment
    completed_tasks := p.completedTasks
    total_tasks := p.totalTasks
    tasks := p.tasks }

/-- `Object.assign` of an author-supplied `downloadResults` over the default
`true` in `_cfg`. -/
def mergedDownloadResults (author : Option JSBool) : JSBool :=
  author.getD .jstrue

/-- The `shouldDownload` expression in `PT._submit`:
`downloadResults === true || (downloadResults !== false && !supabaseUrl)`. -/
def shouldDownload (downloadResults : JSBool) (supabaseUrl : Option String) : Bool :=
  downloadResults == .jstrue ||
    (downloadResults != .jsfalse && !(optTruthy supabaseUrl))

/-- Modelled from the spec: the spec (and the source's own comments
"auto-set to false if supabaseUrl is provided", "off by default if Supabase
set") describe the intended effective download switch — default true, forced
off once a database endpoint is configured unless the author explicitly set
`downloadResults`.  No code in `src/` implements this auto-disable; this
definition follows the spec's words for comparison with `shouldDownload`. -/
def specEffectiveDownload (author : Option JSBool) (supabaseUrl : Option String) : Bool :=
  match author with
  | some .jstrue => true
  | some .jsfalse => false
  | _ => !(optTruthy supabaseUrl)

/-- The name of the local download artifact in `PT._submit`. -/
def downloadName (sessionId : String) : String :=
  "pt-session-" ++ sessionId ++ ".json"

/-- The document-level capturing click listener installed by
`PT._trackClicks`: ignore clicks inside the overlay chrome, ignore clicks
while `taskStart` is unset, otherwise push a `ClickEvent`. -/
def _trackClicks (σ : PTState) (now : Nat) (x y : Int) (tag : String)
    (idAttr : String) (txt : String) (inside : Bool) : PTState :=
  if inside then σ
  else
    match σ.taskStart with
    | none => σ
    | some t0 =>
      { σ with clicks := σ.clicks ++ [{
          t := (now : Int) - (t0 : Int)
          x := x
          y := y
          tag := tag
          idAttr := jsOrNullStr idAttr
          txt := jsTrim (jsSlice txt 60) }] }

/-- The stimuli that drive the controller: each corresponds to a DOM event
handler in the source.  `domEvent` is the host firing a custom event on the
document; `taskCompletedCall` is the public `PrototypeTester.taskCompleted()`
entry point; `recallTimerDone` is the countdown interval reaching zero. -/
inductive Action where
  | startBtn (name email : String)
  | goBtn
  | domEvent (name : String)
  | taskCompletedCall
  | doneBtn
  | hintBtn
  | skipBtn
  | skipNo
  | skipYes
  | skipNextBtn (comment : String)
  | successNextBtn (rating : Nat) (comment : String)
  | recallGo
  | recallTimerDone
  | recallSubmit (answer : String)
  | recallNextBtn
  | submitBtn (rating : Nat) (comment : String)
  | docClick (x y : Int) (tag : String) (idAttr : String) (txt : String) (inside : Bool)
deriving Repr, DecidableEq

/-- One step of the controller: dispatch an action at time `now`.  A
modal's buttons exist only while that modal is open, so they are guarded by
the phase; the bottom bar's buttons are guarded only by the visibility flags
(`barShown`, `controlsShown`, `doneVisible`, `hintShown`, and the
skip-confirm `open` class = `skipState`), because the bar paints above the
modal backdrop and stays clickable while modals are open.  The done
button's handler is `() => PT._goalReached()`, with no guard of its own;
`domEvent` and `taskCompletedCall` carry exactly the guards present in the
source (`goalListener` match plus `goalFired` for the listener,
`taskStart && !goalFired` for the public entry point). -/
def step (cfg : Config) (σ : PTState) (now : Nat) : Action → PTState
  | .startBtn name email =>
    if σ.phase = .welcome then
      let σ' := if cfg.collectTesterInfo
        then { σ with testerName := jsTrim name, testerEmail := jsTrim email }
        else σ
      _startTask cfg { σ' with barShown := true } 0
    else σ
  | .goBtn =>
    if σ.phase = .intro then { σ with taskStart := some now, phase := .active }
    else σ
  | .domEvent n =>
    if σ.goalListener = some n then
      let σ' := { σ with goalListener := none }
      if σ'.goalFired then σ' else _goalReached σ' now
    else σ
  | .taskCompletedCall =>
    if σ.taskStart.isSome ∧ ¬σ.goalFired then _goalReached σ now else σ
  | .doneBtn =>
    if σ.barShown ∧ σ.controlsShown ∧ σ.doneVisible then _goalReached σ now
    else σ
  | .hintBtn =>
    if σ.barShown ∧ σ.hintShown then { σ with hintOpen := !σ.hintOpen } else σ
  | .skipBtn =>
    if σ.barShown ∧ σ.controlsShown then
      { σ with skipState := true, controlsShown := false }
    else σ
  | .skipNo =>
    if σ.barShown ∧ σ.skipState then
      { σ with skipState := false, controlsShown := true }
    else σ
  | .skipYes =>
    if σ.barShown ∧ σ.skipState then _doSkip σ now else σ
  | .skipNextBtn c =>
    match σ.phase with
    | .skipModal e =>
      (match cfg.tasks[σ.currentTask]? with
       | some task => _advance cfg (_record σ task false e 0 (jsTrim c))
       | none => { σ with phase := .stuck })
    | _ => σ
  | .successNextBtn r c =>
    match σ.phase with
    | .goalModal e =>
      (match cfg.tasks[σ.currentTask]? with
       | some task => _advance cfg (_record σ task true e r (jsTrim c))
       | none => { σ with phase := .stuck })
    | _ => σ
  | .recallGo =>
    if σ.phase = .recallIntro then
      { σ with taskStart := some now, recallIv := true, recallActive := true,
               phase := .recallLook }
    else σ
  | .recallTimerDone =>
    if σ.recallIv then
      { σ with recallIv := false, recallActive := false,
               phase := .recallQuestion (now - σ.taskStart.getD 0) }
    else σ
  | .recallSubmit ans =>
    match σ.phase with
    | .recallQuestion e =>
      (match cfg.tasks[σ.currentTask]? with
       | some task => _finishRecall cfg σ task e ans
       | none => { σ with phase := .stuck })
    | _ => σ
  | .recallNextBtn =>
    if σ.phase = .recallFeedback then _advance cfg σ else σ
  | .submitBtn r c =>
    if σ.phase = .final then
      { σ with phase := .submitted (mkPayload cfg σ now r (jsTrim c)) }
    else σ
  | .docClick x y tag idAttr txt inside =>
    _trackClicks σ now x y tag idAttr txt inside

/-- The state right after `init`: welcome modal showing, fresh session. -/
def initState (sessionId : String) (sessionStart : Nat) : PTState :=
  { phase := .welcome
    sessionId := sessionId
    testerName := ""
    testerEmail := ""
    sessionStart := sessionStart
    currentTask := 0
    taskStart := none
    clicks := []
    taskResults := []
    goalListener := none
    goalFired := false
    doneVisible := false
    skipState := false
    hintOpen := false
    recallIv := false
    recallActive := false
    barShown := false
    controlsShown := true
    hintShown := false }

/-- Run a timed trace of actions through the controller. -/
def exec (cfg : Config) : List (Nat × Action) → PTState → PTState
  | [], σ => σ
  | (t, a) :: tr, σ => exec cfg tr (step cfg σ t a)

theorem exec_append (cfg : Config) (l₁ l₂ : List (Nat × Action)) :
    ∀ σ, exec cfg (l₁ ++ l₂) σ = exec cfg l₂ (exec cfg l₁ σ) := by
  induction l₁ with
  | nil => intro σ; rfl
  | cons p l ih => intro σ; cases p; simp only [List.cons_append, exec]; exact ih _

theorem startTask_taskResults (cfg : Config) (σ : PTState) (i : Nat) :
    (_startTask cfg σ i).taskResults = σ.taskResults := by
  simp only [_startTask]
  split
  · rfl
  · split <;> rfl

theorem advance_taskResults (cfg : Config) (σ : PTState) :
    (_advance cfg σ).taskResults = σ.taskResults := by
  simp only [_advance]
  split
  · exact startTask_taskResults ..
  · rfl

/-! ## C4: the local download switch -/

/-- C4: At submission, `shouldDownload` is decided by
`downloadResults === true || (downloadResults !== false && !supabaseUrl)`
over the merged config.  Since the default for `downloadResults` is the
literal `true`, an author who configures a Supabase endpoint *without*
explicitly touching `downloadResults` still gets the local download: the
code evaluates `shouldDownload = true` where the spec (and the source's own
comments) require the download to be auto-disabled.  When the sink fires,
the artifact is named `pt-session-<sessionId>.json`. -/
theorem c4_download_bug :
    shouldDownload (mergedDownloadResults none) (some "https://xxxx.supabase.co") = true ∧
    specEffectiveDownload none (some "https://xxxx.supabase.co") = false ∧
    shouldDownload (mergedDownloadResults (some .jsfalse)) none = false ∧
    shouldDownload (mergedDownloadResults none) none = true ∧
    downloadName "abc123" = "pt-session-abc123.json" :=
  ⟨rfl, rfl, rfl, rfl, rfl⟩

/-! ## C8: session duration and the duration formatter -/

/-- C8: the payload built at submission reports
`sessionDurationMs = now - sessionStart` and formats it with `_fmt`; `_fmt`
maps a millisecond count to `"Ns"` (whole seconds) below 60 seconds and to
`"Mm Ss"` from 60 seconds on; in particular `_fmt 45000 = "45s"` and
`_fmt 125000 = "2m 5s"`. -/
theorem c8_duration_format (cfg : Config) (σ : PTState) (now r : Nat) (c : String)
    (hph : σ.phase = .final) :
    (∃ p, (step cfg σ now (.submitBtn r c)).phase = .submitted p ∧
        p.sessionDurationMs = now - σ.sessionStart ∧
        p.sessionDurationFmt = _fmt (now - σ.sessionStart)) ∧
    (∀ ms : Nat, ms < 60000 → _fmt ms = toString (ms / 1000) ++ "s") ∧
    (∀ ms : Nat, 60000 ≤ ms →
        _fmt ms = toString (ms / 1000 / 60) ++ "m " ++ toString (ms / 1000 % 60) ++ "s") ∧
    _fmt 45000 = "45s" ∧ _fmt 125000 = "2m 5s" := by
  refine ⟨⟨mkPayload cfg σ now r (jsTrim c), ?_, rfl, rfl⟩, ?_, ?_, rfl, rfl⟩
  · simp [step, hph]
  · intro ms h
    have hs : ms / 1000 < 60 := Nat.div_lt_of_lt_mul (by omega)
    simp [_fmt, hs]
  · intro ms h
    have hs : ¬ ms / 1000 < 60 := by
      have : 60 ≤ ms / 1000 := Nat.le_div_iff_mul_le (by norm_num) |>.mpr (by omega)
      omega
    simp [_fmt, hs]

/-- C8 witness: a concrete final-phase state submitted at a concrete time. -/
theorem c8_duration_format_witness :
    ({ initState "s8" 1000 with phase := .final } : PTState).phase = Phase.final ∧
    (∃ p, (step {} { initState "s8" 1000 with phase := .final } 46000
        (.submitBtn 4 "hi")).phase = .submitted p ∧
        p.sessionDurationMs = 46000 - 1000 ∧
        p.sessionDurationFmt = _fmt (46000 - 1000)) ∧
    _fmt 45000 = "45s" ∧ _fmt 125000 = "2m 5s" := by
  have h := c8_duration_format {} { initState "s8" 1000 with phase := .final }
    46000 4 "hi" rfl
  exact ⟨rfl, h.1, h.2.2.2.1, h.2.2.2.2⟩

/-! ## C10: null coercions in the flattened database row -/

/-- C10: in the flattened row, an empty tester name / email / overall
comment and a zero overall rating are each coerced to SQL null by the JS
`|| null` idiom; in particular submitting with no overall star selected
(`overallRating = 0`, which the UI accepts) stores `overall_rating = null`. -/
theorem c10_row_null_coercions (p : Payload) (cfg : Config) (σ : PTState)
    (now : Nat) (c : String) (hph : σ.phase = .final) :
    ((mkRow p).tester_name = none ↔ p.testerName = "") ∧
    ((mkRow p).tester_email = none ↔ p.testerEmail = "") ∧
    ((mkRow p).overall_comment = none ↔ p.overallComment = "") ∧
    ((mkRow p).overall_rating = none ↔ p.overallRating = 0) ∧
    (p.testerName ≠ "" → (mkRow p).tester_name = some p.testerName) ∧
    (p.overallRating ≠ 0 → (mkRow p).overall_rating = some p.overallRating) ∧
    (∃ q, (step cfg σ now (.submitBtn 0 c)).phase = .submitted q ∧
        (mkRow q).overall_rating = none) := by
  refine ⟨?_, ?_, ?_, ?_, ?_, ?_, ⟨mkPayload cfg σ now 0 (jsTrim c), ?_, ?_⟩⟩
  · simp [mkRow, jsOrNullStr]
  · simp [mkRow, jsOrNullStr]
  · simp [mkRow, jsOrNullStr]
  · simp [mkRow, jsOrNullNat]
  · intro h; simp [mkRow, jsOrNullStr, h]
  · intro h; simp [mkRow, jsOrNullNat, h]
  · simp [step, hph]
  · simp [mkRow, mkPayload, jsOrNullNat]

/-- C10 witness: a concrete submission with no star selected. -/
theorem c10_row_null_coercions_witness :
    ((mkRow (mkPayload {} (initState "s10" 0) 5 0 "")).overall_rating = none) ∧
    ((mkRow (mkPayload {} (initState "s10" 0) 5 0 "")).tester_name = none) ∧
    (∃ q, (step {} { initState "s10" 0 with phase := .final } 5
        (.submitBtn 0 "")).phase = .submitted q ∧ (mkRow q).overall_rating = none) :=
  ⟨rfl, rfl,
    (c10_row_null_coercions (mkPayload {} (initState "s10" 0) 5 0 "") {}
      { initState "s10" 0 with phase := .final } 5 "" rfl).2.2.2.2.2.2⟩

/-! ## C5: recall answer grading -/

/-- C5: submitting a recall answer appends one TaskResult with
`completed = true` unconditionally; `recallCorrect` is `some true` iff the
answer matches the configured `correctAnswer` case-insensitively when one is
configured, and is `none` — with no feedback screen — when none is. -/
theorem c5_recall_grading (cfg : Config) (σ : PTState) (e now : Nat)
    (task : TaskDef) (answer : String)
    (hph : σ.phase = .recallQuestion e)
    (htask : cfg.tasks[σ.currentTask]? = some task) :
    ∃ r : TaskResult,
      (step cfg σ now (.recallSubmit answer)).taskResults = σ.taskResults ++ [r] ∧
      r.completed = true ∧
      r.recallAnswer = some answer ∧
      (∀ key, task.correctAnswer = some key →
        (r.recallCorrect = some (jsToLower answer == jsToLower key) ∧
         (r.recallCorrect = some true ↔ jsToLower answer = jsToLower key) ∧
         (step cfg σ now (.recallSubmit answer)).phase = .recallFeedback)) ∧
      (task.correctAnswer = none →
        (r.recallCorrect = none ∧
         (step cfg σ now (.recallSubmit answer)).phase ≠ .recallFeedback)) := by
  refine ⟨{ taskId := jsOrIdStr task.id ("task_" ++ toString (σ.currentTask + 1))
            taskTitle := task.title
            taskType := some "recall"
            completed := true
            durationMs := e
            durationFmt := _fmt e
            easeRating := none
            comment := ""
            recallAnswer := some answer
            recallCorrect := match task.correctAnswer with
              | some key => some (jsToLower answer == jsToLower key)
              | none => none
            clicks := σ.clicks }, ?_, rfl, rfl, ?_, ?_⟩
  · simp only [step, hph, htask, _finishRecall]
    cases h : task.correctAnswer with
    | none => simp only [h]; rw [advance_taskResults]
    | some key => simp [h]
  · intro key hk
    refine ⟨by simp [hk], ?_, ?_⟩
    · simp [hk, beq_iff_eq]
    · simp [step, hph, htask, _finishRecall, hk]
  · intro hk
    refine ⟨by simp [hk], ?_⟩
    simp only [step, hph, htask, _finishRecall, hk, _advance, _startTask]
    split
    · split
      · simp
      · split <;> simp
    · simp

/-- Concrete recall task used by the C5 witness. -/
def c5wTask : TaskDef :=
  { title := "R", type := some "recall", correctAnswer := some "A" }

/-- Concrete config used by the C5 witness. -/
def c5wCfg : Config := { tasks := [c5wTask] }

/-- Concrete state used by the C5 witness: the recall question modal open. -/
def c5wState : PTState := { initState "s5" 0 with phase := .recallQuestion 100 }

/-- C5 witness: a recall task with key `"A"`, answered `"a"` (a match after
lowercasing). -/
theorem c5_recall_grading_witness :
    c5wCfg.tasks[c5wState.currentTask]? = some c5wTask ∧
    c5wState.phase = .recallQuestion 100 ∧
    ∃ r : TaskResult,
      (step c5wCfg c5wState 500 (.recallSubmit "a")).taskResults
        = c5wState.taskResults ++ [r] ∧
      r.completed = true ∧ r.recallCorrect = some true := by
  refine ⟨rfl, rfl, ?_⟩
  obtain ⟨r, h1, h2, _, h4, _⟩ :=
    c5_recall_grading c5wCfg c5wState 100 500 c5wTask "a" rfl rfl
  obtain ⟨hc, hiff, _⟩ := h4 "A" rfl
  exact ⟨r, h1, h2, hiff.mpr (by decide)⟩

/-! ## C9: confirming a skip -/

/-- C9: confirming a skip appends exactly one TaskResult with
`completed = false` and `easeRating = 0`, carrying the (trimmed) optional
comment, and then advances to the next task's intro (standard or recall) or
to final feedback. -/
theorem c9_skip_records (cfg : Config) (σ : PTState) (e now : Nat)
    (task : TaskDef) (c : String)
    (hph : σ.phase = .skipModal e)
    (htask : cfg.tasks[σ.currentTask]? = some task) :
    (∃ r : TaskResult,
      (step cfg σ now (.skipNextBtn c)).taskResults = σ.taskResults ++ [r] ∧
      r.completed = false ∧ r.easeRating = some 0 ∧ r.comment = jsTrim c ∧
      r.durationMs = e) ∧
    (σ.currentTask + 1 < cfg.tasks.length →
      ((step cfg σ now (.skipNextBtn c)).phase = .intro ∨
       (step cfg σ now (.skipNextBtn c)).phase = .recallIntro) ∧
      (step cfg σ now (.skipNextBtn c)).currentTask = σ.currentTask + 1) ∧
    (¬ σ.currentTask + 1 < cfg.tasks.length →
      (step cfg σ now (.skipNextBtn c)).phase = .final) := by
  refine ⟨⟨{ taskId := jsOrIdStr task.id ("task_" ++ toString (σ.currentTask + 1))
             taskTitle := task.title
             taskType := none
             completed := false
             durationMs := e
             durationFmt := _fmt e
             easeRating := some 0
             comment := jsTrim c
             recallAnswer := none
             recallCorrect := none
             clicks := σ.clicks }, ?_, rfl, rfl, rfl, rfl⟩, ?_, ?_⟩
  · simp only [step, hph, htask, _record]
    rw [advance_taskResults]
  · intro hlt
    obtain ⟨task2, htask2⟩ : ∃ t, cfg.tasks[σ.currentTask + 1]? = some t := by
      rw [List.getElem?_eq_getElem hlt]
      exact ⟨_, rfl⟩
    simp only [step, hph, htask, _record, _advance, _startTask, hlt, if_pos, htask2]
    split <;> simp
  · intro hlt
    simp [step, hph, htask, _record, _advance, hlt]

/-- Concrete config used by the C9 witness. -/
def c9wCfg : Config := { tasks := [{ title := "T1" }] }

/-- Concrete state used by the C9 witness: the skip modal open at elapsed
1500ms on the only task. -/
def c9wState : PTState := { initState "s9" 0 with phase := .skipModal 1500 }

/-- C9 witness: skipping the single configured task with comment
`" confusing "`. -/
theorem c9_skip_records_witness :
    c9wState.phase = .skipModal 1500 ∧
    (∃ r : TaskResult,
      (step c9wCfg c9wState 9000 (.skipNextBtn " confusing ")).taskResults
        = c9wState.taskResults ++ [r] ∧
      r.completed = false ∧ r.easeRating = some 0 ∧ r.comment = "confusing" ∧
      r.durationMs = 1500) ∧
    (step c9wCfg c9wState 9000 (.skipNextBtn " confusing ")).phase = .final := by
  have h := c9_skip_records c9wCfg c9wState 1500 9000 { title := "T1" }
    " confusing " rfl rfl
  obtain ⟨⟨r, h1, h2, h3, h4, h5⟩, _, h7⟩ := h
  refine ⟨rfl, ⟨r, h1, h2, h3, ?_, h5⟩, h7 (by decide)⟩
  rw [h4]; decide

/-! ## C3: host signals arriving before the task has started -/

/-- Concrete config used by the C3 counterexample: one task whose goal
signal is the custom event `"x"`. -/
def c3Cfg : Config := { tasks := [{ title := "T1", goalEvent := some "x" }] }

/-- The prefix trace for the C3 counterexample: the tester confirms the
welcome modal, after which the task-intro modal for task 0 is open and the
task clock has not started. -/
def c3Pre : List (Nat × Action) := [(0, .startBtn "" "")]

/-- C3 counterexample: with the task-intro modal still open
(`taskStart = none`), the host firing the goal event `"x"` is *not*
ignored — the registered listener checks only the `goalFired` flag, so
`_goalReached` runs (with elapsed 0 via the `taskStart || Date.now()`
fallback), the success modal opens, and confirming it appends a completed
TaskResult.  The claim says this pre-start fire must not trigger goal
completion nor yield a TaskResult. -/
theorem c3_counterexample :
    (exec c3Cfg c3Pre (initState "s3" 0)).taskStart = none ∧
    (exec c3Cfg c3Pre (initState "s3" 0)).phase = .intro ∧
    (exec c3Cfg (c3Pre ++ [(5, .domEvent "x")]) (initState "s3" 0)).phase
      = .goalModal 0 ∧
    (exec c3Cfg (c3Pre ++ [(5, .domEvent "x")]) (initState "s3" 0)).goalFired
      = true ∧
    (exec c3Cfg (c3Pre ++ [(5, .domEvent "x"), (6, .successNextBtn 3 "")])
        (initState "s3" 0)).taskResults.length = 1 ∧
    ((exec c3Cfg (c3Pre ++ [(5, .domEvent "x"), (6, .successNextBtn 3 "")])
        (initState "s3" 0)).taskResults.countP (·.completed)) = 1 :=
  ⟨rfl, rfl, rfl, rfl, rfl, rfl⟩

/-- C3 (amended): before the task has started (`taskStart = none`), the
public `taskCompleted()` entry point *is* guarded and ignored (the whole
state is unchanged); the goal-event listener, however, checks only
`goalFired`, so a pre-start fire of the registered goal event does trigger
goal completion, with elapsed 0. -/
theorem c3_prestart_guard (cfg : Config) (σ : PTState) (now : Nat) (g : String)
    (hts : σ.taskStart = none) :
    step cfg σ now .taskCompletedCall = σ ∧
    (σ.goalListener = some g → σ.goalFired = false →
      (step cfg σ now (.domEvent g)).phase = .goalModal 0 ∧
      (step cfg σ now (.domEvent g)).goalFired = true ∧
      (step cfg σ now (.domEvent g)).taskResults = σ.taskResults) := by
  constructor
  · simp [step, hts]
  · intro hl hgf
    refine ⟨?_, ?_, ?_⟩ <;> simp [step, hl, hgf, _goalReached, elapsedOf, hts]

/-- C3 witness: the concrete intro-phase state of `c3Cfg` right after the
welcome modal. -/
theorem c3_prestart_guard_witness :
    (exec c3Cfg c3Pre (initState "s3" 0)).taskStart = none ∧
    step c3Cfg (exec c3Cfg c3Pre (initState "s3" 0)) 5 .taskCompletedCall
      = exec c3Cfg c3Pre (initState "s3" 0) ∧
    (step c3Cfg (exec c3Cfg c3Pre (initState "s3" 0)) 5 (.domEvent "x")).phase
      = .goalModal 0 := by
  have h := c3_prestart_guard c3Cfg (exec c3Cfg c3Pre (initState "s3" 0)) 5 "x" rfl
  exact ⟨rfl, h.1, (h.2 rfl rfl).1⟩

/-! ## C2: idempotent goal completion -/

/-- Marks the host-side completion stimuli for goal signal `g`: the document
event `g` and the public `taskCompleted()` call. -/
def isFire (g : String) : Action → Bool
  | .domEvent n => n == g
  | .taskCompletedCall => true
  | _ => false

theorem step_fire_taskResults (cfg : Config) (σ : PTState) (now : Nat)
    (g : String) (a : Action) (ha : isFire g a = true) :
    (step cfg σ now a).taskResults = σ.taskResults := by
  cases a <;> try exact Bool.noConfusion ha
  · simp only [step]
    split
    · split
      · rfl
      · simp [_goalReached]
    · rfl
  · simp only [step]
    split
    · simp [_goalReached]
    · rfl

theorem exec_fire_taskResults (cfg : Config) (g : String) :
    ∀ (fs : List (Nat × Action)) (σ : PTState),
      fs.all (fun p => isFire g p.2) = true →
      (exec cfg fs σ).taskResults = σ.taskResults := by
  intro fs
  induction fs with
  | nil => intro σ _; rfl
  | cons p tl ih =>
    intro σ hall
    simp only [List.all_cons, Bool.and_eq_true] at hall
    cases p with
    | mk t a =>
      simp only [exec]
      rw [ih _ hall.2, step_fire_taskResults cfg σ t g a hall.1]

theorem step_fire_fixpoint (cfg : Config) (σ : PTState) (now : Nat)
    (g : String) (a : Action) (ha : isFire g a = true)
    (hgf : σ.goalFired = true) (hl : σ.goalListener = none) :
    step cfg σ now a = σ := by
  cases a <;> try exact Bool.noConfusion ha
  · simp [step, hl]
  · simp [step, hgf]

theorem exec_fire_fixpoint (cfg : Config) (g : String) :
    ∀ (fs : List (Nat × Action)) (σ : PTState),
      fs.all (fun p => isFire g p.2) = true →
      σ.goalFired = true → σ.goalListener = none →
      exec cfg fs σ = σ := by
  intro fs
  induction fs with
  | nil => intro σ _ _ _; rfl
  | cons p tl ih =>
    intro σ hall hgf hl
    simp only [List.all_cons, Bool.and_eq_true] at hall
    cases p with
    | mk t a =>
      simp only [exec]
      rw [step_fire_fixpoint cfg σ t g a hall.1 hgf hl]
      exact ih σ hall.2 hgf hl

/-- C2: from a started task whose goal listener for `g` is registered and
whose guard flag is clear, any non-empty burst of completion stimuli
(document events `g` and/or `taskCompleted()` calls) lands the controller in
exactly the success-modal state — guard set, listener detached, no result
recorded yet; the state is the same whether the burst had one stimulus or
many.  Confirming the success modal then appends exactly one TaskResult for
that task, and any further burst of the same stimuli leaves the recorded
results unchanged. -/
theorem c2_goal_idempotent (cfg : Config) (σ : PTState) (g : String)
    (task : TaskDef) (t0 : Nat)
    (_hph : σ.phase = .active) (hl : σ.goalListener = some g)
    (hgf : σ.goalFired = false) (hts : σ.taskStart = some t0)
    (htask : cfg.tasks[σ.currentTask]? = some task)
    (fs : List (Nat × Action)) (tf : Nat)
    (hne : fs ≠ []) (hfs : fs.all (fun p => isFire g p.2) = true)
    (hhd : ∀ t a, fs.head? = some (t, a) → t = tf)
    (tc r : Nat) (c : String) :
    exec cfg fs σ
      = { σ with phase := .goalModal (tf - t0), goalFired := true,
                 goalListener := none } ∧
    (exec cfg fs σ).taskResults = σ.taskResults ∧
    (∃ res : TaskResult,
      (step cfg (exec cfg fs σ) tc (.successNextBtn r c)).taskResults
        = σ.taskResults ++ [res] ∧
      res.completed = true ∧
      res.taskId = jsOrIdStr task.id ("task_" ++ toString (σ.currentTask + 1)) ∧
      res.taskTitle = task.title ∧
      (∀ fs₂ : List (Nat × Action), fs₂.all (fun p => isFire g p.2) = true →
        (exec cfg fs₂ (step cfg (exec cfg fs σ) tc (.successNextBtn r c))).taskResults
          = σ.taskResults ++ [res])) := by
  obtain ⟨⟨t, a⟩, tl, rfl⟩ : ∃ p tl, fs = p :: tl := by
    cases fs with
    | nil => exact absurd rfl hne
    | cons p tl => exact ⟨p, tl, rfl⟩
  have ht : t = tf := hhd t a rfl
  subst ht
  simp only [List.all_cons, Bool.and_eq_true] at hfs
  have hone : step cfg σ t a
      = { σ with phase := .goalModal (t - t0), goalFired := true,
                 goalListener := none } := by
    cases a <;> try exact Bool.noConfusion hfs.1
    · obtain ⟨hg, _⟩ := hfs
      simp only [isFire, beq_iff_eq] at hg
      subst hg
      simp [step, hl, hgf, _goalReached, elapsedOf, hts]
    · simp [step, hts, hgf, _goalReached, elapsedOf]
  have hexec : exec cfg ((t, a) :: tl) σ
      = { σ with phase := .goalModal (t - t0), goalFired := true,
                 goalListener := none } := by
    simp only [exec, hone]
    exact exec_fire_fixpoint cfg g tl _ hfs.2 rfl rfl
  refine ⟨hexec, by rw [hexec], ?_⟩
  refine ⟨{ taskId := jsOrIdStr task.id ("task_" ++ toString (σ.currentTask + 1))
            taskTitle := task.title
            taskType := none
            completed := true
            durationMs := t - t0
            durationFmt := _fmt (t - t0)
            easeRating := some r
            comment := jsTrim c
            recallAnswer := none
            recallCorrect := none
            clicks := σ.clicks }, ?_, rfl, rfl, rfl, ?_⟩
  · rw [hexec]
    simp only [step, htask, _record]
    rw [advance_taskResults]
  · intro fs₂ hfs₂
    rw [exec_fire_taskResults cfg g fs₂ _ hfs₂, hexec]
    simp only [step, htask, _record]
    rw [advance_taskResults]

/-- Concrete config for the C2 witness: one task with goal event `"x"`. -/
def c2wCfg : Config := { tasks := [{ title := "T1", goalEvent := some "x" }] }

/-- Concrete state for the C2 witness: task 0 active, clock started at 1. -/
def c2wState : PTState := exec c2wCfg [(0, .startBtn "" ""), (1, .goBtn)] (initState "s2" 0)

/-- C2 witness: a concrete burst of three stimuli — the goal event twice
plus a `taskCompleted()` call — yields one success modal and, after the
confirm, exactly one completed TaskResult that survives two further fires. -/
theorem c2_goal_idempotent_witness :
    c2wState.phase = .active ∧ c2wState.goalListener = some "x" ∧
    c2wState.goalFired = false ∧ c2wState.taskStart = some 1 ∧
    ∃ res : TaskResult,
      (step c2wCfg
        (exec c2wCfg [(5, .domEvent "x"), (6, .domEvent "x"), (7, .taskCompletedCall)]
          c2wState) 9 (.successNextBtn 4 "")).taskResults
        = c2wState.taskResults ++ [res] ∧
      res.completed = true ∧
      (exec c2wCfg [(11, .domEvent "x"), (12, .taskCompletedCall)]
        (step c2wCfg
          (exec c2wCfg [(5, .domEvent "x"), (6, .domEvent "x"), (7, .taskCompletedCall)]
            c2wState) 9 (.successNextBtn 4 ""))).taskResults
        = c2wState.taskResults ++ [res] := by
  refine ⟨rfl, rfl, rfl, rfl, ?_⟩
  obtain ⟨_, _, res, h1, h2, _, _, h5⟩ :=
    c2_goal_idempotent c2wCfg c2wState "x" { title := "T1", goalEvent := some "x" } 1
      rfl rfl rfl rfl rfl
      [(5, .domEvent "x"), (6, .domEvent "x"), (7, .taskCompletedCall)] 5
      (by decide) (by decide) (fun t a h => by simpa using (congrArg (·.1) (Option.some_injective _ h)).symm)
      9 4 ""
  exact ⟨res, h1, h2, h5 [(11, .domEvent "x"), (12, .taskCompletedCall)] (by decide)⟩

/-! ## C6: tasks without a goal signal -/

/-- `true` for every action except the two manual-completion paths named by
the claim: the "Mark as done" button and the skip confirmation (the skip
comment modal's confirm is phase-guarded behind `skipYes`, but we exclude it
too so the predicate names every skip-path stimulus). -/
def notManualOrSkip : Action → Bool
  | .doneBtn => false
  | .skipBtn => false
  | .skipNo => false
  | .skipYes => false
  | .skipNextBtn _ => false
  | _ => true

/-- Like `notManualOrSkip`, but also excluding the public `taskCompleted()`
entry point — the completion path the claim omits. -/
def noCompletionPath : Action → Bool
  | .doneBtn => false
  | .skipBtn => false
  | .skipNo => false
  | .skipYes => false
  | .skipNextBtn _ => false
  | .taskCompletedCall => false
  | _ => true

/-- Concrete config used by the C6 counterexample and witness: one task with
no goal signal. -/
def c6Cfg : Config := { tasks := [{ title := "T1" }] }

/-- The C6 counterexample trace: welcome confirmed, intro dismissed, then
the host calls the public `taskCompleted()` entry point and the tester
confirms the success modal. -/
def c6Tr : List (Nat × Action) :=
  [(0, .startBtn "" ""), (1, .goBtn), (2, .taskCompletedCall),
   (3, .successNextBtn 4 "")]

/-- C6 counterexample: for the goal-less task, a trace containing neither a
"Mark as done" click nor any skip action still produces a (completed)
TaskResult, via the public `taskCompleted()` entry point — so manual
mark-done and skip are *not* the only paths to a TaskResult. -/
theorem c6_counterexample :
    ({ title := "T1" } : TaskDef).goalEvent = none ∧
    c6Tr.all (fun p => notManualOrSkip p.2) = true ∧
    (exec c6Cfg c6Tr (initState "s6" 0)).taskResults.length = 1 ∧
    (exec c6Cfg c6Tr (initState "s6" 0)).taskResults.countP (·.completed) = 1 :=
  ⟨rfl, rfl, rfl, rfl⟩

theorem step_noCompletion (cfg : Config) (σ : PTState) (now : Nat) (a : Action)
    (ha : noCompletionPath a = true)
    (h1 : σ.phase = .active) (h2 : σ.goalListener = none)
    (h3 : σ.recallIv = false) :
    (step cfg σ now a).phase = .active ∧
    (step cfg σ now a).goalListener = none ∧
    (step cfg σ now a).recallIv = false ∧
    (step cfg σ now a).taskResults = σ.taskResults := by
  cases a <;> try exact Bool.noConfusion ha
  all_goals
    simp only [step, _trackClicks]
    repeat' split
    all_goals simp_all

theorem exec_noCompletion (cfg : Config) :
    ∀ (tr : List (Nat × Action)) (σ : PTState),
      σ.phase = .active → σ.goalListener = none → σ.recallIv = false →
      tr.all (fun p => noCompletionPath p.2) = true →
      (exec cfg tr σ).taskResults = σ.taskResults := by
  intro tr
  induction tr with
  | nil => intro σ _ _ _ _; rfl
  | cons p tl ih =>
    intro σ h1 h2 h3 hall
    simp only [List.all_cons, Bool.and_eq_true] at hall
    cases p with
    | mk t a =>
      obtain ⟨g1, g2, g3, g4⟩ := step_noCompletion cfg σ t a hall.1 h1 h2 h3
      simp only [exec]
      rw [ih _ g1 g2 g3 hall.2, g4]

/-- C6 (amended): for a non-recall task without a (truthy) configured goal
signal, `_startTask` registers no goal-event listener and shows the manual
"Mark as done" affordance; with no listener, any document event is a no-op;
and during the active task, any trace that avoids the manual-completion
stimuli — the done button *and the public `taskCompleted()` entry point* —
and the skip actions leaves the recorded results unchanged: manual
completion (button or public API) and skip are the only paths to a
TaskResult. -/
theorem c6_manual_only (cfg : Config) (task : TaskDef) (i : Nat)
    (σ0 : PTState)
    (htask : cfg.tasks[i]? = some task)
    (hng : optTruthy task.goalEvent = false)
    (hnr : ¬ task.type = some "recall") :
    ((_startTask cfg σ0 i).goalListener = none ∧
     (_startTask cfg σ0 i).doneVisible = true ∧
     (_startTask cfg σ0 i).phase = .intro) ∧
    (∀ (σ : PTState) (now : Nat) (n : String), σ.goalListener = none →
      step cfg σ now (.domEvent n) = σ) ∧
    (∀ (tr : List (Nat × Action)) (σ : PTState),
      σ.phase = .active → σ.goalListener = none → σ.recallIv = false →
      tr.all (fun p => noCompletionPath p.2) = true →
      (exec cfg tr σ).taskResults = σ.taskResults) := by
  refine ⟨?_, ?_, exec_noCompletion cfg⟩
  · simp [_startTask, htask, hnr, hng]
  · intro σ now n hl
    simp [step, hl]

/-- C6 witness: the concrete goal-less task of `c6Cfg`, with a concrete
active-phase state and a concrete completion-free trace (clicks, a hint
toggle, a skip confirm round-trip via "Keep trying", a stray document
event). -/
theorem c6_manual_only_witness :
    ((_startTask c6Cfg (initState "s6" 0) 0).goalListener = none ∧
     (_startTask c6Cfg (initState "s6" 0) 0).doneVisible = true ∧
     (_startTask c6Cfg (initState "s6" 0) 0).phase = .intro) ∧
    (exec c6Cfg
      [(2, .docClick 5 6 "button" "" "Buy" false), (3, .hintBtn),
       (4, .domEvent "whatever"),
       (5, .docClick 7 8 "a" "nav" "Home" false)]
      (exec c6Cfg [(0, .startBtn "" ""), (1, .goBtn)] (initState "s6" 0))).taskResults
      = (exec c6Cfg [(0, .startBtn "" ""), (1, .goBtn)] (initState "s6" 0)).taskResults := by
  have h := c6_manual_only c6Cfg { title := "T1" } 0 (initState "s6" 0) rfl rfl
    (by decide)
  exact ⟨h.1, h.2.2 _ _ rfl rfl rfl (by decide)⟩

/-! ## C1: submission counting -/

/-- Config for the bar-over-backdrop double-record scenario: one recall
task with a configured correct answer. -/
def c1RecallCfg : Config :=
  { tasks := [{ title := "R", type := some "recall", question := some "Q?",
                options := some ["A", "B"], correctAnswer := some "A" }] }

/-- A skip confirmed while the recall feedback modal is open: the controls
were restored by `_finishRecall`, and the bar stacks above the modal
backdrop, so the skip flow runs. -/
def c1RecallTr : List (Nat × Action) :=
  [(0, .startBtn "" ""), (10, .recallGo), (2010, .recallTimerDone),
   (3000, .recallSubmit "B"), (3100, .skipBtn), (3200, .skipYes),
   (3300, .skipNextBtn ""), (3400, .submitBtn 4 "")]

/-- Even with no `taskCompleted()` (or mark-as-done) stimulus at all, the
counting consequence of the original claim fails: a skip confirmed while
the recall feedback modal is open records a second TaskResult for the
already-recorded recall task, so `completedTasks + skippedCount = 2 ≠ 1 =
totalTasks`.  This is why `uiDiscipline` restricts skip confirmations (and
mark-as-done clicks) to the standard task flow, not just `taskCompleted()`. -/
theorem c1_recallFeedback_skip_double_record :
    (c1RecallTr.all fun q => match q.2 with
      | .taskCompletedCall => false
      | .doneBtn => false
      | _ => true) = true ∧
    ∃ p, (exec c1RecallCfg c1RecallTr (initState "s1r" 0)).phase = .submitted p ∧
      p.totalTasks = 1 ∧ p.completedTasks = 1 ∧
      p.tasks.countP (fun r => !r.completed) = 1 ∧
      p.completedTasks + p.tasks.countP (fun r => !r.completed) ≠ p.totalTasks :=
  ⟨rfl, _, rfl, rfl, rfl, rfl, by decide⟩

/-- `timesSortedFrom b tr` holds when the event timestamps of `tr` are
strictly increasing and all at least `b` (real time is strictly monotone
across distinct DOM event dispatches). -/
def timesSortedFrom (b : Nat) : List (Nat × Action) → Bool
  | [] => true
  | p :: tr => (decide (b ≤ p.1)) && timesSortedFrom (p.1 + 1) tr

/-- One past the last timestamp of `tr` (or `b` when `tr` is empty). -/
def endB (b : Nat) : List (Nat × Action) → Nat
  | [] => b
  | p :: tr => endB (p.1 + 1) tr

/-- While the intro modal of a task (standard or recall) is open, the task
clock has not started and the click trail is empty: _startTask clears both
before opening the modal. -/
def IntroEmpty (σ : PTState) : Prop :=
  (σ.phase = .intro ∨ σ.phase = .recallIntro) → σ.taskStart = none ∧ σ.clicks = []

/-- The cross-step click-trail invariant, relative to a lower bound `b` on
every future timestamp: every recorded click has a non-negative offset taken
against the current `taskStart`, which lies strictly below `b`, and the
click's absolute time is strictly below `b`. -/
def ClickInv (σ : PTState) (b : Nat) : Prop :=
  IntroEmpty σ ∧
  (∀ t0, σ.taskStart = some t0 → t0 < b) ∧
  (∀ c ∈ σ.clicks, 0 ≤ c.t ∧
    ∃ t0, σ.taskStart = some t0 ∧ (t0 : Int) + c.t < (b : Int))

theorem introEmpty_startTask (cfg : Config) (σ : PTState) (i : Nat) :
    IntroEmpty (_startTask cfg σ i) := by
  cases htask : cfg.tasks[i]? with
  | none =>
    simp only [_startTask, htask]
    intro h
    rcases h with h | h <;> exact Phase.noConfusion h
  | some task =>
    by_cases hrec : task.type = some "recall" <;>
      simp [_startTask, htask, hrec, IntroEmpty]

theorem introEmpty_advance (cfg : Config) (σ : PTState) :
    IntroEmpty (_advance cfg σ) := by
  simp only [_advance]
  split
  · exact introEmpty_startTask cfg σ _
  · intro h
    rcases h with h | h <;> exact Phase.noConfusion h

theorem clickInv_mono (σ : PTState) (b b' : Nat) (h : ClickInv σ b)
    (hbb : b ≤ b') : ClickInv σ b' := by
  obtain ⟨h1, h2, h3⟩ := h
  refine ⟨h1, fun t0 ht => lt_of_lt_of_le (h2 t0 ht) hbb, fun c hc => ?_⟩
  obtain ⟨hpos, t0, ht, hlt⟩ := h3 c hc
  exact ⟨hpos, t0, ht, lt_of_lt_of_le hlt (by exact_mod_cast hbb)⟩

theorem clickInv_startTask (cfg : Config) (σ : PTState) (i b : Nat)
    (h : ClickInv σ b) : ClickInv (_startTask cfg σ i) b := by
  cases htask : cfg.tasks[i]? with
  | none =>
    obtain ⟨h1, h2, h3⟩ := h
    simp only [_startTask, htask]
    refine ⟨?_, h2, h3⟩
    intro hp
    rcases hp with hp | hp <;> exact Phase.noConfusion hp
  | some task =>
    by_cases hrec : task.type = some "recall" <;>
      simp [_startTask, htask, hrec, ClickInv, IntroEmpty]

theorem clickInv_advance (cfg : Config) (σ : PTState) (b : Nat)
    (h : ClickInv σ b) : ClickInv (_advance cfg σ) b := by
  simp only [_advance]
  split
  · exact clickInv_startTask cfg σ _ b h
  · obtain ⟨h1, h2, h3⟩ := h
    refine ⟨?_, h2, h3⟩
    intro hp
    rcases hp with hp | hp <;> exact Phase.noConfusion hp

theorem clickInv_goalReached (σ : PTState) (now b : Nat)
    (h : ClickInv σ b) : ClickInv (_goalReached σ now) b := by
  obtain ⟨h1, h2, h3⟩ := h
  refine ⟨?_, h2, h3⟩
  intro hp
  rcases hp with hp | hp <;> exact Phase.noConfusion hp

theorem clickInv_step (cfg : Config) (σ : PTState) (now : Nat) (a : Action)
    (b : Nat) (h : ClickInv σ b) (hb : b ≤ now) :
    ClickInv (step cfg σ now a) (now + 1) := by
  have hm : ClickInv σ (now + 1) := clickInv_mono σ b (now + 1) h (by omega)
  obtain ⟨h1, h2, h3⟩ := hm
  cases a with
  | startBtn name email =>
    simp only [step]
    split
    · split
      · exact clickInv_startTask cfg _ 0 (now + 1) ⟨h1, h2, h3⟩
      · exact clickInv_startTask cfg _ 0 (now + 1) ⟨h1, h2, h3⟩
    · exact ⟨h1, h2, h3⟩
  | goBtn =>
    simp only [step]
    split
    · rename_i hph
      have hempty := h1 (Or.inl hph)
      refine ⟨?_, ?_, ?_⟩
      · intro hp
        rcases hp with hp | hp <;> exact Phase.noConfusion hp
      · intro t0 ht
        have h' : some now = some t0 := ht
        injection h' with h''
        omega
      · intro c hc
        simp only [hempty.2] at hc
        exact absurd hc (List.not_mem_nil c)
    · exact ⟨h1, h2, h3⟩
  | domEvent n =>
    simp only [step]
    split
    · split
      · refine ⟨?_, h2, h3⟩
        intro hp
        exact h1 hp
      · exact clickInv_goalReached _ now (now + 1) ⟨fun hp => h1 hp, h2, h3⟩
    · exact ⟨h1, h2, h3⟩
  | taskCompletedCall =>
    simp only [step]
    split
    · exact clickInv_goalReached _ now (now + 1) ⟨h1, h2, h3⟩
    · exact ⟨h1, h2, h3⟩
  | doneBtn =>
    simp only [step]
    split
    · exact clickInv_goalReached _ now (now + 1) ⟨h1, h2, h3⟩
    · exact ⟨h1, h2, h3⟩
  | hintBtn =>
    simp only [step]
    split
    · exact ⟨fun hp => h1 hp, h2, h3⟩
    · exact ⟨h1, h2, h3⟩
  | skipBtn =>
    simp only [step]
    split
    · exact ⟨fun hp => h1 hp, h2, h3⟩
    · exact ⟨h1, h2, h3⟩
  | skipNo =>
    simp only [step]
    split
    · exact ⟨fun hp => h1 hp, h2, h3⟩
    · exact ⟨h1, h2, h3⟩
  | skipYes =>
    simp only [step]
    split
    · refine ⟨?_, h2, h3⟩
      intro hp
      simp only [_doSkip] at hp
      rcases hp with hp | hp <;> exact Phase.noConfusion hp
    · exact ⟨h1, h2, h3⟩
  | skipNextBtn c =>
    simp only [step]
    split
    · split
      · exact clickInv_advance cfg _ (now + 1) ⟨fun hp => h1 hp, h2, h3⟩
      · refine ⟨?_, h2, h3⟩
        intro hp
        rcases hp with hp | hp <;> exact Phase.noConfusion hp
    · exact ⟨h1, h2, h3⟩
  | successNextBtn r c =>
    simp only [step]
    split
    · split
      · exact clickInv_advance cfg _ (now + 1) ⟨fun hp => h1 hp, h2, h3⟩
      · refine ⟨?_, h2, h3⟩
        intro hp
        rcases hp with hp | hp <;> exact Phase.noConfusion hp
    · exact ⟨h1, h2, h3⟩
  | recallGo =>
    simp only [step]
    split
    · rename_i hph
      have hempty := h1 (Or.inr hph)
      refine ⟨?_, ?_, ?_⟩
      · intro hp
        rcases hp with hp | hp <;> exact Phase.noConfusion hp
      · intro t0 ht
        have h' : some now = some t0 := ht
        injection h' with h''
        omega
      · intro c hc
        simp only [hempty.2] at hc
        exact absurd hc (List.not_mem_nil c)
    · exact ⟨h1, h2, h3⟩
  | recallTimerDone =>
    simp only [step]
    split
    · refine ⟨?_, h2, h3⟩
      intro hp
      rcases hp with hp | hp <;> exact Phase.noConfusion hp
    · exact ⟨h1, h2, h3⟩
  | recallSubmit ans =>
    simp only [step]
    split
    · split
      · simp only [_finishRecall]
        split
        · refine ⟨?_, h2, h3⟩
          intro hp
          rcases hp with hp | hp <;> exact Phase.noConfusion hp
        · exact clickInv_advance cfg _ (now + 1) ⟨fun hp => h1 hp, h2, h3⟩
      · refine ⟨?_, h2, h3⟩
        intro hp
        rcases hp with hp | hp <;> exact Phase.noConfusion hp
    · exact ⟨h1, h2, h3⟩
  | recallNextBtn =>
    simp only [step]
    split
    · exact clickInv_advance cfg _ (now + 1) ⟨h1, h2, h3⟩
    · exact ⟨h1, h2, h3⟩
  | submitBtn r c =>
    simp only [step]
    split
    · refine ⟨?_, h2, h3⟩
      intro hp
      rcases hp with hp | hp <;> exact Phase.noConfusion hp
    · exact ⟨h1, h2, h3⟩
  | docClick x y tag idAttr txt inside =>
    simp only [step, _trackClicks]
    split
    · exact ⟨h1, h2, h3⟩
    · split
      · exact ⟨h1, h2, h3⟩
      · rename_i t0 hts
        refine ⟨?_, ?_, ?_⟩
        · intro hp
          have := (h1 hp).1
          rw [this] at hts
          exact Option.noConfusion hts
        · intro t0' ht
          simp only at ht
          have := h2 t0' ht
          omega
        · intro c hc
          simp only [List.mem_append, List.mem_singleton] at hc
          rcases hc with hc | hc
          · obtain ⟨hpos, t0', ht', hlt'⟩ := h3 c hc
            refine ⟨hpos, t0', ht', ?_⟩
            push_cast
            push_cast at hlt'
            omega
          · subst hc
            have ht0 : t0 < now + 1 := by
              have := h2 t0 hts
              omega
            have ht0' : t0 ≤ now := by
              have := h2 t0 hts
              omega
            refine ⟨by push_cast; omega, t0, hts, by push_cast; omega⟩

theorem clickInv_exec (cfg : Config) :
    ∀ (tr : List (Nat × Action)) (σ : PTState) (b : Nat),
      ClickInv σ b → timesSortedFrom b tr = true →
      ClickInv (exec cfg tr σ) (endB b tr) := by
  intro tr
  induction tr with
  | nil => intro σ b h _; exact h
  | cons p tl ih =>
    intro σ b h hs
    cases p with
    | mk t a =>
      simp only [timesSortedFrom, Bool.and_eq_true, decide_eq_true_eq] at hs
      exact ih (step cfg σ t a) (t + 1) (clickInv_step cfg σ t a b h hs.1) hs.2

theorem endB_le (b : Nat) (tr : List (Nat × Action))
    (hs : timesSortedFrom b tr = true) : b ≤ endB b tr := by
  induction tr generalizing b with
  | nil => exact le_refl b
  | cons p tl ih =>
    simp only [timesSortedFrom, Bool.and_eq_true, decide_eq_true_eq] at hs
    calc b ≤ p.1 + 1 := by omega
    _ ≤ endB (p.1 + 1) tl := ih (p.1 + 1) hs.2

theorem timesSortedFrom_append (b : Nat) (l₁ l₂ : List (Nat × Action)) :
    timesSortedFrom b (l₁ ++ l₂) =
      (timesSortedFrom b l₁ && timesSortedFrom (endB b l₁) l₂) := by
  induction l₁ generalizing b with
  | nil => simp [timesSortedFrom, endB]
  | cons p tl ih =>
    simp only [List.cons_append, timesSortedFrom, endB, List.append_eq, ih,
      Bool.and_assoc]

theorem taskResults_ne_self_append (l : List TaskResult) (r : TaskResult) :
    ¬ l = l ++ [r] := by
  intro h
  have := congrArg List.length h
  simp at this

/-- When one step appends the result `r`, `r`'s click list is the snapshot
of the pre-step trail (`PT._s.clicks.slice()`). -/
theorem step_append_clicks (cfg : Config) (σ : PTState) (now : Nat)
    (a : Action) (r : TaskResult)
    (happ : (step cfg σ now a).taskResults = σ.taskResults ++ [r]) :
    r.clicks = σ.clicks := by
  cases a with
  | skipNextBtn c =>
    simp only [step] at happ
    rcases hph : σ.phase with _ | _ | _ | e | e | _ | _ | e | _ | _ | p | _ <;>
      rw [hph] at happ <;>
      first
      | exact absurd happ (taskResults_ne_self_append σ.taskResults r)
      | skip
    cases htask : cfg.tasks[σ.currentTask]? with
    | none =>
      rw [htask] at happ
      exact absurd happ (taskResults_ne_self_append σ.taskResults r)
    | some task =>
      rw [htask] at happ
      rw [advance_taskResults] at happ
      simp only [_record] at happ
      have h2 := List.append_cancel_left happ
      have h3 : r.clicks = σ.clicks := by
        have := (List.cons.injEq _ _ _ _).mp h2.symm
        rw [this.1]
      exact h3
  | successNextBtn rt c =>
    simp only [step] at happ
    rcases hph : σ.phase with _ | _ | _ | e | e | _ | _ | e | _ | _ | p | _ <;>
      rw [hph] at happ <;>
      first
      | exact absurd happ (taskResults_ne_self_append σ.taskResults r)
      | skip
    cases htask : cfg.tasks[σ.currentTask]? with
    | none =>
      rw [htask] at happ
      exact absurd happ (taskResults_ne_self_append σ.taskResults r)
    | some task =>
      rw [htask] at happ
      rw [advance_taskResults] at happ
      simp only [_record] at happ
      have h2 := List.append_cancel_left happ
      have h3 : r.clicks = σ.clicks := by
        have := (List.cons.injEq _ _ _ _).mp h2.symm
        rw [this.1]
      exact h3
  | recallSubmit ans =>
    simp only [step] at happ
    rcases hph : σ.phase with _ | _ | _ | e | e | _ | _ | e | _ | _ | p | _ <;>
      rw [hph] at happ <;>
      first
      | exact absurd happ (taskResults_ne_self_append σ.taskResults r)
      | skip
    cases htask : cfg.tasks[σ.currentTask]? with
    | none =>
      rw [htask] at happ
      exact absurd happ (taskResults_ne_self_append σ.taskResults r)
    | some task =>
      rw [htask] at happ
      simp only [_finishRecall] at happ
      rcases hkey : task.correctAnswer with _ | key <;> rw [hkey] at happ
      · rw [advance_taskResults] at happ
        simp only at happ
        have h2 := List.append_cancel_left happ
        have h3 : r.clicks = σ.clicks := by
          have := (List.cons.injEq _ _ _ _).mp h2.symm
          rw [this.1]
        exact h3
      · simp only at happ
        have h2 := List.append_cancel_left happ
        have h3 : r.clicks = σ.clicks := by
          have := (List.cons.injEq _ _ _ _).mp h2.symm
          rw [this.1]
        exact h3
  | startBtn name email =>
    simp only [step] at happ
    split at happ
    · split at happ <;>
        (rw [startTask_taskResults] at happ;
         exact absurd happ (taskResults_ne_self_append σ.taskResults r))
    · exact absurd happ (taskResults_ne_self_append σ.taskResults r)
  | recallNextBtn =>
    simp only [step] at happ
    split at happ
    · rw [advance_taskResults] at happ
      exact absurd happ (taskResults_ne_self_append σ.taskResults r)
    · exact absurd happ (taskResults_ne_self_append σ.taskResults r)
  | goBtn =>
    simp only [step] at happ
    split at happ <;> exact absurd happ (taskResults_ne_self_append σ.taskResults r)
  | domEvent n =>
    simp only [step] at happ
    split at happ
    · split at happ <;>
        exact absurd happ (taskResults_ne_self_append σ.taskResults r)
    · exact absurd happ (taskResults_ne_self_append σ.taskResults r)
  | taskCompletedCall =>
    simp only [step] at happ
    split at happ <;> exact absurd happ (taskResults_ne_self_append σ.taskResults r)
  | doneBtn =>
    simp only [step] at happ
    split at happ <;> exact absurd happ (taskResults_ne_self_append σ.taskResults r)
  | hintBtn =>
    simp only [step] at happ
    split at happ <;> exact absurd happ (taskResults_ne_self_append σ.taskResults r)
  | skipBtn =>
    simp only [step] at happ
    split at happ <;> exact absurd happ (taskResults_ne_self_append σ.taskResults r)
  | skipNo =>
    simp only [step] at happ
    split at happ <;> exact absurd happ (taskResults_ne_self_append σ.taskResults r)
  | skipYes =>
    simp only [step] at happ
    split at happ <;> exact absurd happ (taskResults_ne_self_append σ.taskResults r)
  | recallGo =>
    simp only [step] at happ
    split at happ <;> exact absurd happ (taskResults_ne_self_append σ.taskResults r)
  | recallTimerDone =>
    simp only [step] at happ
    split at happ <;> exact absurd happ (taskResults_ne_self_append σ.taskResults r)
  | submitBtn rt c =>
    simp only [step] at happ
    split at happ <;> exact absurd happ (taskResults_ne_self_append σ.taskResults r)
  | docClick x y tag idAttr txt inside =>
    simp only [step, _trackClicks] at happ
    split at happ
    · exact absurd happ (taskResults_ne_self_append σ.taskResults r)
    · split at happ <;>
        exact absurd happ (taskResults_ne_self_append σ.taskResults r)

theorem introEmpty_step (cfg : Config) (σ : PTState) (now : Nat) (a : Action)
    (h : IntroEmpty σ) : IntroEmpty (step cfg σ now a) := by
  have hinv : ClickInv σ (0 : Nat) → True := fun _ => trivial
  cases a with
  | startBtn name email =>
    simp only [step]
    split
    · split <;> exact introEmpty_startTask cfg _ 0
    · exact h
  | goBtn =>
    simp only [step]
    split
    · intro hp
      rcases hp with hp | hp <;> exact Phase.noConfusion hp
    · exact h
  | domEvent n =>
    simp only [step]
    split
    · split
      · exact fun hp => h hp
      · intro hp
        simp only [_goalReached] at hp
        rcases hp with hp | hp <;> exact Phase.noConfusion hp
    · exact h
  | taskCompletedCall =>
    simp only [step]
    split
    · intro hp
      simp only [_goalReached] at hp
      rcases hp with hp | hp <;> exact Phase.noConfusion hp
    · exact h
  | doneBtn =>
    simp only [step]
    split
    · intro hp
      simp only [_goalReached] at hp
      rcases hp with hp | hp <;> exact Phase.noConfusion hp
    · exact h
  | hintBtn =>
    simp only [step]
    split
    · exact fun hp => h hp
    · exact h
  | skipBtn =>
    simp only [step]
    split
    · exact fun hp => h hp
    · exact h
  | skipNo =>
    simp only [step]
    split
    · exact fun hp => h hp
    · exact h
  | skipYes =>
    simp only [step]
    split
    · intro hp
      simp only [_doSkip] at hp
      rcases hp with hp | hp <;> exact Phase.noConfusion hp
    · exact h
  | skipNextBtn c =>
    simp only [step]
    split
    · split
      · exact introEmpty_advance cfg _
      · intro hp
        rcases hp with hp | hp <;> exact Phase.noConfusion hp
    · exact h
  | successNextBtn r c =>
    simp only [step]
    split
    · split
      · exact introEmpty_advance cfg _
      · intro hp
        rcases hp with hp | hp <;> exact Phase.noConfusion hp
    · exact h
  | recallGo =>
    simp only [step]
    split
    · intro hp
      rcases hp with hp | hp <;> exact Phase.noConfusion hp
    · exact h
  | recallTimerDone =>
    simp only [step]
    split
    · intro hp
      rcases hp with hp | hp <;> exact Phase.noConfusion hp
    · exact h
  | recallSubmit ans =>
    simp only [step]
    split
    · split
      · simp only [_finishRecall]
        split
        · intro hp
          rcases hp with hp | hp <;> exact Phase.noConfusion hp
        · exact introEmpty_advance cfg _
      · intro hp
        rcases hp with hp | hp <;> exact Phase.noConfusion hp
    · exact h
  | recallNextBtn =>
    simp only [step]
    split
    · exact introEmpty_advance cfg _
    · exact h
  | submitBtn r c =>
    simp only [step]
    split
    · intro hp
      rcases hp with hp | hp <;> exact Phase.noConfusion hp
    · exact h
  | docClick x y tag idAttr txt inside =>
    simp only [step, _trackClicks]
    split
    · exact h
    · split
      · exact h
      · rename_i t0 hts
        intro hp
        have := (h hp).1
        rw [this] at hts
        exact Option.noConfusion hts

theorem introEmpty_exec (cfg : Config) :
    ∀ (tr : List (Nat × Action)) (σ : PTState),
      IntroEmpty σ → IntroEmpty (exec cfg tr σ) := by
  intro tr
  induction tr with
  | nil => intro σ h; exact h
  | cons p tl ih =>
    intro σ h
    exact ih _ (introEmpty_step cfg σ p.1 p.2 h)

/-- C7: over any session trace with strictly increasing event timestamps,
(1) every click stored in a TaskResult appended at time `e` has an offset
`t` with `0 ≤ t < e - taskStart`, i.e. it lies inside the window from the
task's start to the moment the result is recorded; (2) the click handler
records nothing while no task is active (`taskStart` unset): the state is
completely unchanged; (3) whenever a task's intro modal is (re)opened, the
click trail is empty. -/
theorem c7_click_trail (cfg : Config) (sid : String) (ts0 : Nat)
    (tr₁ : List (Nat × Action)) (e : Nat) (a : Action) (r : TaskResult)
    (hsorted : timesSortedFrom 0 (tr₁ ++ [(e, a)]) = true)
    (happ : (exec cfg (tr₁ ++ [(e, a)]) (initState sid ts0)).taskResults
      = (exec cfg tr₁ (initState sid ts0)).taskResults ++ [r]) :
    (∀ c ∈ r.clicks, 0 ≤ c.t ∧
      ∃ t0, (exec cfg tr₁ (initState sid ts0)).taskStart = some t0 ∧
        c.t < (e : Int) - (t0 : Int)) ∧
    (∀ (σ : PTState) (now : Nat) (x y : Int) (tag idAttr txt : String)
        (inside : Bool), σ.taskStart = none →
      step cfg σ now (.docClick x y tag idAttr txt inside) = σ) ∧
    (∀ tr : List (Nat × Action),
      ((exec cfg tr (initState sid ts0)).phase = .intro ∨
       (exec cfg tr (initState sid ts0)).phase = .recallIntro) →
      (exec cfg tr (initState sid ts0)).clicks = []) := by
  have hinit : ClickInv (initState sid ts0) 0 := by
    refine ⟨?_, ?_, ?_⟩
    · intro hp
      simp only [initState] at hp
      rcases hp with hp | hp <;> exact Phase.noConfusion hp
    · intro t0 ht
      simp [initState] at ht
    · intro c hc
      simp [initState] at hc
  rw [timesSortedFrom_append, Bool.and_eq_true] at hsorted
  have hs1 := hsorted.1
  have hs2 := hsorted.2
  simp only [timesSortedFrom, Bool.and_eq_true, decide_eq_true_eq] at hs2
  have hEe : endB 0 tr₁ ≤ e := hs2.1
  have hci : ClickInv (exec cfg tr₁ (initState sid ts0)) (endB 0 tr₁) :=
    clickInv_exec cfg tr₁ (initState sid ts0) 0 hinit hs1
  have hciE : ClickInv (exec cfg tr₁ (initState sid ts0)) e :=
    clickInv_mono _ _ _ hci hEe
  have hstep : (step cfg (exec cfg tr₁ (initState sid ts0)) e a).taskResults
      = (exec cfg tr₁ (initState sid ts0)).taskResults ++ [r] := by
    rw [← happ, exec_append]
    rfl
  have hclicks := step_append_clicks cfg _ e a r hstep
  refine ⟨?_, ?_, ?_⟩
  · intro c hc
    rw [hclicks] at hc
    obtain ⟨hpos, t0, ht0, hlt⟩ := hciE.2.2 c hc
    exact ⟨hpos, t0, ht0, by omega⟩
  · intro σ now x y tag idAttr txt inside hts
    simp [step, _trackClicks, hts]
  · intro tr hp
    have hi0 : IntroEmpty (initState sid ts0) := by
      intro hp0
      simp only [initState] at hp0
      rcases hp0 with hp0 | hp0 <;> exact Phase.noConfusion hp0
    exact (introEmpty_exec cfg tr (initState sid ts0) hi0 hp).2

/-- Concrete config for the C7 witness: a single manual task. -/
def c7wCfg : Config := { tasks := [{ title := "T1" }] }

/-- Concrete C7 witness prefix trace: welcome, intro dismissed at time 1,
one host-page click at time 3 (offset 2), then the skip confirmation; the
skip comment modal is confirmed at time 6. -/
def c7wTr : List (Nat × Action) :=
  [(0, .startBtn "" ""), (1, .goBtn),
   (3, .docClick 10 20 "button" "" "Buy it" false),
   (4, .skipBtn), (5, .skipYes)]

/-- The TaskResult appended at time 6 in the C7 witness trace. -/
def c7wRes : TaskResult :=
  { taskId := "task_1", taskTitle := "T1", taskType := none, completed := false,
    durationMs := 4, durationFmt := "0s", easeRating := some 0, comment := "",
    recallAnswer := none, recallCorrect := none,
    clicks := [{ t := 2, x := 10, y := 20, tag := "button", idAttr := none,
                 txt := "Buy it" }] }

/-- C7 witness: the hypotheses hold for the concrete trace and the recorded
click (offset 2) satisfies `0 ≤ 2 < 6 - 1`. -/
theorem c7_click_trail_witness :
    timesSortedFrom 0 (c7wTr ++ [(6, .skipNextBtn "")]) = true ∧
    (exec c7wCfg (c7wTr ++ [(6, .skipNextBtn "")]) (initState "s7" 0)).taskResults
      = (exec c7wCfg c7wTr (initState "s7" 0)).taskResults ++ [c7wRes] ∧
    (∀ c ∈ c7wRes.clicks, 0 ≤ c.t ∧
      ∃ t0, (exec c7wCfg c7wTr (initState "s7" 0)).taskStart = some t0 ∧
        c.t < (6 : Int) - (t0 : Int)) := by
  refine ⟨by decide, by decide, ?_⟩
  exact (c7_click_trail c7wCfg "s7" 0 c7wTr 6 (.skipNextBtn "") c7wRes
    (by decide) (by decide)).1

end PrototypeTester
